import Mathlib

/-!
# Verification of the joke-bot workflow engine

A shallow embedding of `src/website portf/jokebot.py`: the pydantic data
model (`Joke`, `JokeState`), the five node functions (`show_menu`,
`writer_node`, `critic_node`, `update_category`, `exit_bot`), the router
(`route_choice`), and the LangGraph execution of the compiled graph
built by `build_joke_graph`.

Console input is modelled as a list of pending lines, console output as a
list of abstract output events (one per `print` call in the source), and
`random.choice` as selection of an element by an externally supplied seed
stream.  The external joke source `pyjokes.get_joke` is a function
parameter.
-/

namespace JokeBot

/-- `class Joke(BaseModel)`: joke text, category, and the critic's
decision (`approved`, default `False`). -/
structure Joke where
  text : String
  category : String
  approved : Bool := false
deriving DecidableEq, Repr

/-- `class JokeState(BaseModel)`: the workflow state threaded through the
graph, with the pydantic field defaults. -/
structure JokeState where
  jokes : List Joke := []
  jokes_choice : String := "n"
  category : String := "neutral"
  language : String := "en"
  quit : Bool := false
deriving DecidableEq, Repr

/-- The initial state `JokeState()` that `main` passes to `graph.invoke`. -/
def initialState : JokeState := {}

/-- A partial state update, the `dict` a node returns: `none` means the
field is absent from the returned dict. -/
structure JokeUpdate where
  jokes : Option (List Joke) := none
  jokes_choice : Option String := none
  category : Option String := none
  language : Option String := none
  quit : Option Bool := none
deriving DecidableEq, Repr

/-- One abstract output event per `print` call in the source. -/
inductive OutEvent where
  | invalidMenu
  | writerWrote (category : String)
  | criticReject
  | criticApprove
  | jokeShown (text : String)
  | invalidSelection
  | notANumber
  | categoryChanged (category : String)
  | farewell
deriving DecidableEq, Repr

/-- The console and randomness environment: pending input lines, emitted
output events, and the stream of seeds consumed by `random.choice`. -/
structure Effects where
  inputs : List String
  outputs : List OutEvent
  seeds : Nat → Nat
  seedIdx : Nat

/-- Append one output event (a `print` call). -/
def printEvent (eff : Effects) (e : OutEvent) : Effects :=
  { eff with outputs := eff.outputs ++ [e] }

/-- `random.choice(seq)`: pick one element of the list, at an index below
its length determined by the random seed. -/
def random_choice (l : List String) (seed : Nat) : String :=
  l.getD (seed % l.length) ""

/-- The whitespace characters removed by Python's `str.strip()` (the
ASCII ones; exotic Unicode space classes are not modelled). -/
def pySpace (c : Char) : Bool :=
  c = ' ' || c = '\t' || c = '\n' || c = '\r' || c = '\x0b' || c = '\x0c'

/-- Python's `str.strip()`: drop leading and trailing whitespace. -/
def pyStrip (s : String) : String :=
  String.mk (((s.data.dropWhile pySpace).reverse.dropWhile pySpace).reverse)

/-- Lower-case one character (ASCII; Python's `str.lower()` also maps
non-ASCII letters, which the inputs here never contain). -/
def lowerChar (c : Char) : Char :=
  if 'A' ≤ c ∧ c ≤ 'Z' then Char.ofNat (c.toNat + 32) else c

/-- Python's `str.lower()`. -/
def pyLower (s : String) : String :=
  String.mk (s.data.map lowerChar)

/-- Value of a non-empty all-digit character list. -/
def digitsToNat (ds : List Char) : Nat :=
  ds.foldl (fun acc c => 10 * acc + (c.toNat - 48)) 0

/-- Parse a bare decimal-digit run. -/
def decDigits? (ds : List Char) : Option Nat :=
  if ds ≠ [] ∧ ds.all Char.isDigit then some (digitsToNat ds) else none

/-- Python's `int(str)` builtin on a text argument: surrounding
whitespace is stripped, then an optional sign followed by decimal
digits; anything else raises `ValueError`, modelled as `none`.
(Digit-group underscores and non-ASCII digits are not modelled.) -/
def pyInt? (s : String) : Option Int :=
  match (pyStrip s).data with
  | '+' :: ds => (decDigits? ds).map Int.ofNat
  | '-' :: ds => (decDigits? ds).map (fun n => -(n : Int))
  | ds => (decDigits? ds).map Int.ofNat

/-- `show_menu`: read a line, strip and lower-case it; anything outside
`["n", "c", "q"]` is coerced to `"n"` with a warning.  Returns `none`
when no input line is available (the read would block). -/
def show_menu (_state : JokeState) (eff : Effects) :
    Option (JokeUpdate × Effects) :=
  match eff.inputs with
  | [] => none
  | line :: rest =>
    let eff := { eff with inputs := rest }
    let user_input := pyLower (pyStrip line)
    if user_input ∉ (["n", "c", "q"] : List String) then
      some ({ jokes_choice := some "n" }, printEvent eff .invalidMenu)
    else
      some ({ jokes_choice := some user_input }, eff)

/-- The first two lines of `writer_node`: `category = state.category`,
replaced via `random.choice` (consuming one seed) when it is the `"all"`
sentinel. -/
def resolveCategory (state : JokeState) (eff : Effects) : String × Effects :=
  if state.category = "all" then
    (random_choice ["neutral", "chuck"] (eff.seeds eff.seedIdx),
      { eff with seedIdx := eff.seedIdx + 1 })
  else
    (state.category, eff)

/-- `writer_node`: resolve the `"all"` sentinel, call the joke source,
and return a dict holding a one-element jokes list with the new
unapproved record. -/
def writer_node (get_joke : String → String → String) (state : JokeState)
    (eff : Effects) : JokeUpdate × Effects :=
  let category := (resolveCategory state eff).1
  let eff := (resolveCategory state eff).2
  let joke_text := get_joke state.language category
  let new_joke : Joke := { text := joke_text, category := category }
  (({ jokes := some [new_joke] }), printEvent eff (.writerWrote category))

/-- `critic_node`: on an empty history return the empty dict; otherwise
flip the last record's `approved` flag by the 40-character rule and
return a dict holding a one-element jokes list with that record. -/
def critic_node (state : JokeState) (eff : Effects) : JokeUpdate × Effects :=
  match state.jokes.getLast? with
  | none => ({}, eff)
  | some last_joke =>
    if last_joke.text.length < 40 then
      ({ jokes := some [{ last_joke with approved := false }] },
        printEvent eff .criticReject)
    else
      ({ jokes := some [{ last_joke with approved := true }] },
        printEvent (printEvent eff .criticApprove) (.jokeShown last_joke.text))

/-- The fixed selectable category list of `update_category`. -/
def categories : List String := ["neutral", "chuck", "all"]

/-- The `while True` retry loop of `update_category`: read a line, strip
it and parse it as an integer; loop with an error message on parse
failure or an out-of-range value, and return the accepted index on
success.  `none` means the input lines ran out while still retrying. -/
def update_category_loop (cats : List String) :
    List String → List OutEvent → Option (Nat × List String × List OutEvent)
  | [], _ => none
  | line :: rest, outs =>
    match pyInt? (pyStrip line) with
    | none => update_category_loop cats rest (outs ++ [OutEvent.notANumber])
    | some selection =>
      if 0 ≤ selection ∧ selection < (cats.length : Int) then
        some (selection.toNat, rest, outs)
      else
        update_category_loop cats rest (outs ++ [OutEvent.invalidSelection])

/-- `update_category`: run the retry loop over `categories`, then print
the confirmation and return a dict setting only `category`. -/
def update_category (_state : JokeState) (eff : Effects) :
    Option (JokeUpdate × Effects) :=
  match update_category_loop categories eff.inputs eff.outputs with
  | none => none
  | some (selection, rest, outs) =>
    let chosen := categories.getD selection ""
    some ({ category := some chosen },
      { eff with inputs := rest,
                 outputs := outs ++ [OutEvent.categoryChanged chosen] })

/-- `exit_bot`: print the farewell and return a dict setting `quit`. -/
def exit_bot (_state : JokeState) (eff : Effects) : JokeUpdate × Effects :=
  ({ quit := some true }, printEvent eff .farewell)

/-- `route_choice`: map the menu choice to the name of the next node. -/
def route_choice (state : JokeState) : String :=
  if state.jokes_choice = "n" then "writer"
  else if state.jokes_choice = "c" then "update_category"
  else if state.jokes_choice = "q" then "exit_bot"
  else "exit_bot"

/-- The nodes of the graph built by `build_joke_graph`, plus the `END`
sentinel. -/
inductive Node where
  | show_menu
  | writer
  | critic
  | update_category
  | exit_bot
  | ENDnode
deriving DecidableEq, Repr

/-- The mapping dict of `add_conditional_edges`: the string returned by
`route_choice` names the next node. -/
def cond_edges (s : String) : Option Node :=
  if s = "writer" then some .writer
  else if s = "update_category" then some .update_category
  else if s = "exit_bot" then some .exit_bot
  else none

/-- Modelled from the spec: the LangGraph engine behind the compiled
graph (the `langgraph` library is not part of this repository).  After a
node runs and its update is merged, the next node follows the registered
edges: the conditional edge after `show_menu` applies `route_choice` to
the updated state, the plain edges are `writer -> critic`,
`critic -> show_menu`, `update_category -> show_menu`, and
`exit_bot -> END`. -/
def nextNode (n : Node) (state : JokeState) : Node :=
  match n with
  | .show_menu => (cond_edges (route_choice state)).getD .ENDnode
  | .writer => .critic
  | .critic => .show_menu
  | .update_category => .show_menu
  | .exit_bot => .ENDnode
  | .ENDnode => .ENDnode

/-- Modelled from the spec: the LangGraph state merge (the `langgraph`
library is not part of this repository).  `JokeState` declares no
reducer on any field (the imported `add_messages` reducer is never
used), so every channel is a last-value channel: a field present in the
returned dict replaces the stored value, an absent field is kept. -/
def applyUpdate (state : JokeState) (u : JokeUpdate) : JokeState :=
  { jokes := u.jokes.getD state.jokes
    jokes_choice := u.jokes_choice.getD state.jokes_choice
    category := u.category.getD state.category
    language := u.language.getD state.language
    quit := u.quit.getD state.quit }

/-- Run one node, dispatching to its function.  `none` means the node
blocked on exhausted console input. -/
def execNode (get_joke : String → String → String) (n : Node)
    (state : JokeState) (eff : Effects) : Option (JokeUpdate × Effects) :=
  match n with
  | .show_menu => show_menu state eff
  | .writer => some (writer_node get_joke state eff)
  | .critic => some (critic_node state eff)
  | .update_category => update_category state eff
  | .exit_bot => some (exit_bot state eff)
  | .ENDnode => some ({}, eff)

/-- Modelled from the spec: the LangGraph run loop of `graph.invoke`
(the `langgraph` library is not part of this repository).  Starting at
the entry point it repeatedly executes the current node, merges its
update, and follows `nextNode`, until `END` is reached or the
recursion limit (`fuel`) is exhausted.  Returns the final state and the
list of executed nodes; `none` models `GraphRecursionError` or a read
blocking on exhausted input. -/
def runFrom (get_joke : String → String → String) :
    Nat → Node → JokeState → Effects → Option (JokeState × List Node)
  | 0, _, _, _ => none
  | fuel + 1, n, state, eff =>
    if n = .ENDnode then some (state, [])
    else
      match execNode get_joke n state eff with
      | none => none
      | some (u, eff') =>
        let state' := applyUpdate state u
        match runFrom get_joke fuel (nextNode n state') state' eff' with
        | none => none
        | some (final, trace) => some (final, n :: trace)

/-- `graph.invoke(JokeState(), config={"recursion_limit": 100})` with the
given console input lines and seed stream. -/
def invokeGraph (get_joke : String → String → String)
    (inputs : List String) (seeds : Nat → Nat) :
    Option (JokeState × List Node) :=
  runFrom get_joke 100 .show_menu initialState
    { inputs := inputs, outputs := [], seeds := seeds, seedIdx := 0 }

/-- A stub joke source returning a fixed 50-character string on every
call. -/
def stubJoke : String → String → String :=
  fun _ _ => String.mk (List.replicate 50 'j')

/-- The end-to-end run with console inputs `["n", "n", "q"]`, the stub
joke source, and an arbitrary all-zero seed stream (no seed is consumed
since `category` never becomes `"all"`). -/
def scenarioNNQ : Option (JokeState × List Node) :=
  invokeGraph stubJoke ["n", "n", "q"] (fun _ => 0)

/-- An empty console environment, used to instantiate theorems. -/
def eff0 : Effects :=
  { inputs := [], outputs := [], seeds := fun _ => 0, seedIdx := 0 }

/-- One unfolding of the run loop at positive fuel. -/
theorem runFrom_succ (get_joke : String → String → String) (fuel : Nat)
    (n : Node) (state : JokeState) (eff : Effects) :
    runFrom get_joke (fuel + 1) n state eff =
      if n = .ENDnode then some (state, []) else
        match execNode get_joke n state eff with
        | none => none
        | some (u, eff') =>
          let state' := applyUpdate state u
          match runFrom get_joke fuel (nextNode n state') state' eff' with
          | none => none
          | some (final, trace) => some (final, n :: trace) := rfl

/-- `random.choice` over the two concrete categories yields one of them,
whatever the seed. -/
theorem random_choice_mem_pair (seed : Nat) :
    random_choice ["neutral", "chuck"] seed = "neutral" ∨
      random_choice ["neutral", "chuck"] seed = "chuck" := by
  unfold random_choice
  rcases Nat.mod_two_eq_zero_or_one seed with h | h <;>
    simp [List.length, h]

/-- C3: for every joke text, the critic step sets the last record's
`approved` flag to `true` exactly when the text has at least 40
characters (so length 39 rejects and length 40 approves). -/
theorem critic_approval_threshold (state : JokeState) (eff : Effects)
    (j : Joke) (h : state.jokes.getLast? = some j) :
    (critic_node state eff).1.jokes =
      some [{ j with approved := decide (40 ≤ j.text.length) }] := by
  unfold critic_node
  rw [h]
  rcases Nat.lt_or_ge j.text.length 40 with hlen | hlen
  · have hd : decide (40 ≤ j.text.length) = false := by
      simpa using Nat.not_le.mpr hlen
    simp [hlen, hd]
  · have hd : decide (40 ≤ j.text.length) = true := by simpa using hlen
    simp [Nat.not_lt.mpr hlen, hd]

/-- C3 witness: the boundary cases, a 39-character text is rejected and
a 40-character text is approved. -/
theorem critic_approval_threshold_witness :
    (critic_node
        { initialState with
            jokes := [{ text := String.mk (List.replicate 39 'a'),
                        category := "neutral" }] } eff0).1.jokes =
      some [{ text := String.mk (List.replicate 39 'a'),
              category := "neutral", approved := false }] ∧
    (critic_node
        { initialState with
            jokes := [{ text := String.mk (List.replicate 40 'a'),
                        category := "neutral" }] } eff0).1.jokes =
      some [{ text := String.mk (List.replicate 40 'a'),
              category := "neutral", approved := true }] := by
  constructor
  · have h := critic_approval_threshold
      { initialState with
          jokes := [{ text := String.mk (List.replicate 39 'a'),
                      category := "neutral" }] } eff0
      { text := String.mk (List.replicate 39 'a'), category := "neutral" }
      (by rfl)
    simpa using h
  · have h := critic_approval_threshold
      { initialState with
          jokes := [{ text := String.mk (List.replicate 40 'a'),
                      category := "neutral" }] } eff0
      { text := String.mk (List.replicate 40 'a'), category := "neutral" }
      (by rfl)
    simpa using h

/-- C4: when the writer step runs with the session category `"all"`, the
category stored on the new joke record is `"neutral"` or `"chuck"` and
never the literal `"all"`. -/
theorem writer_resolves_all_sentinel (get_joke : String → String → String)
    (state : JokeState) (eff : Effects) (h : state.category = "all") :
    ∃ j : Joke, (writer_node get_joke state eff).1.jokes = some [j] ∧
      j.category ∈ (["neutral", "chuck"] : List String) ∧
      j.category ≠ "all" := by
  have hres : (resolveCategory state eff).1 =
      random_choice ["neutral", "chuck"] (eff.seeds eff.seedIdx) := by
    simp [resolveCategory, h]
  refine ⟨{ text := get_joke state.language (resolveCategory state eff).1,
            category := (resolveCategory state eff).1 }, rfl, ?_, ?_⟩
  · rw [hres]
    rcases random_choice_mem_pair (eff.seeds eff.seedIdx) with hc | hc <;>
      simp [hc]
  · rw [hres]
    rcases random_choice_mem_pair (eff.seeds eff.seedIdx) with hc | hc <;>
      simp [hc]

/-- C4 witness: a concrete writer run with category `"all"`. -/
theorem writer_resolves_all_sentinel_witness :
    ({ initialState with category := "all" } : JokeState).category = "all" ∧
    ∃ j : Joke,
      (writer_node stubJoke { initialState with category := "all" }
          eff0).1.jokes = some [j] ∧
      j.category ∈ (["neutral", "chuck"] : List String) ∧
      j.category ≠ "all" :=
  ⟨rfl, writer_resolves_all_sentinel stubJoke
    { initialState with category := "all" } eff0 rfl⟩

/-- C5: the post-menu branch function is total: choice `"n"` maps to the
writer node, `"c"` to the category-update node, `"q"` to the exit node,
any other value to the exit node, and the result is always one of the
three registered node names. -/
theorem route_choice_total (state : JokeState) :
    (state.jokes_choice = "n" → route_choice state = "writer") ∧
    (state.jokes_choice = "c" → route_choice state = "update_category") ∧
    (state.jokes_choice = "q" → route_choice state = "exit_bot") ∧
    (state.jokes_choice ∉ (["n", "c", "q"] : List String) →
      route_choice state = "exit_bot") ∧
    route_choice state ∈
      (["writer", "update_category", "exit_bot"] : List String) := by
  unfold route_choice
  refine ⟨fun h => by simp [h], fun h => by simp [h], fun h => by simp [h],
    fun h => ?_, ?_⟩
  · simp only [List.mem_cons, List.not_mem_nil, or_false, not_or] at h
    simp [h.1, h.2.1, h.2.2]
  · by_cases h1 : state.jokes_choice = "n"
    · simp [h1]
    · by_cases h2 : state.jokes_choice = "c"
      · simp [h1, h2]
      · by_cases h3 : state.jokes_choice = "q" <;> simp [h1, h2, h3]

/-- C5 witness: the branch function evaluated at each choice and at an
out-of-enum value. -/
theorem route_choice_total_witness :
    route_choice { initialState with jokes_choice := "n" } = "writer" ∧
    route_choice { initialState with jokes_choice := "c" } =
      "update_category" ∧
    route_choice { initialState with jokes_choice := "q" } = "exit_bot" ∧
    route_choice { initialState with jokes_choice := "zzz" } = "exit_bot" :=
  ⟨(route_choice_total _).1 rfl, (route_choice_total _).2.1 rfl,
    (route_choice_total _).2.2.1 rfl,
    (route_choice_total _).2.2.2.1 (by decide)⟩

/-- C6: the menu step stores the trimmed, lower-cased input when it is
one of `"n"`, `"c"`, `"q"`, and coerces every other input to `"n"`. -/
theorem menu_coercion (state : JokeState) (line : String)
    (rest : List String) (outs : List OutEvent) (seeds : Nat → Nat)
    (idx : Nat) :
    ∃ eff' : Effects,
      show_menu state
          { inputs := line :: rest, outputs := outs, seeds := seeds,
            seedIdx := idx } =
        some ({ jokes_choice :=
                  some (if pyLower (pyStrip line) ∈
                          (["n", "c", "q"] : List String)
                        then pyLower (pyStrip line) else "n") }, eff') ∧
      eff'.inputs = rest := by
  by_cases hm : pyLower (pyStrip line) ∈ (["n", "c", "q"] : List String)
  · exact ⟨{ inputs := rest, outputs := outs, seeds := seeds,
             seedIdx := idx },
      by simp [show_menu, hm], rfl⟩
  · exact ⟨{ inputs := rest, outputs := outs ++ [OutEvent.invalidMenu],
             seeds := seeds, seedIdx := idx },
      by simp [show_menu, printEvent, hm], rfl⟩

/-- C9: on an empty history the critic step returns the empty update and
prints nothing, and merging the empty update leaves the state
unchanged. -/
theorem critic_empty_noop (state : JokeState) (eff : Effects)
    (h : state.jokes = []) :
    critic_node state eff = ({}, eff) ∧ applyUpdate state {} = state := by
  constructor
  · simp [critic_node, h]
  · rfl

/-- C9 witness: the critic step on the initial (empty-history) state. -/
theorem critic_empty_noop_witness :
    critic_node initialState eff0 = ({}, eff0) ∧
      applyUpdate initialState {} = initialState :=
  critic_empty_noop initialState eff0 rfl

/-- C7: the category-update step rejects every line that does not parse
as an integer in range `0..2`, appending one error message and retrying
with the rest of the input (the loop carries no state update); the
first valid index `k` selects the `k`-th entry of
`["neutral", "chuck", "all"]`; for inputs `["x", "5", "1"]` the first
two lines are rejected with an error each and the final update sets
`category` (and nothing else) to `"chuck"`. -/
theorem update_category_retry :
    (∀ (line : String) (rest : List String) (outs : List OutEvent),
       (∀ k : Int, pyInt? (pyStrip line) = some k → ¬(0 ≤ k ∧ k < 3)) →
       ∃ e : OutEvent,
         (e = OutEvent.notANumber ∨ e = OutEvent.invalidSelection) ∧
         update_category_loop categories (line :: rest) outs =
           update_category_loop categories rest (outs ++ [e])) ∧
    (∀ (line : String) (rest : List String) (outs : List OutEvent)
        (k : Int),
       pyInt? (pyStrip line) = some k → 0 ≤ k → k < 3 →
       update_category_loop categories (line :: rest) outs =
         some (k.toNat, rest, outs)) ∧
    (∀ (state : JokeState) (seeds : Nat → Nat) (idx : Nat),
       update_category state
           { inputs := ["x", "5", "1"], outputs := [], seeds := seeds,
             seedIdx := idx } =
         some ({ category := some "chuck" },
           { inputs := [],
             outputs := [OutEvent.notANumber, OutEvent.invalidSelection,
               OutEvent.categoryChanged "chuck"],
             seeds := seeds, seedIdx := idx })) := by
  refine ⟨?_, ?_, ?_⟩
  · intro line rest outs hbad
    cases hp : pyInt? (pyStrip line) with
    | none =>
      exact ⟨OutEvent.notANumber, Or.inl rfl, by
        simp [update_category_loop, hp]⟩
    | some k =>
      refine ⟨OutEvent.invalidSelection, Or.inr rfl, ?_⟩
      have hk : ¬(0 ≤ k ∧ k < (categories.length : Int)) := by
        simpa [categories] using hbad k hp
      simp [update_category_loop, hp, hk]
  · intro line rest outs k hp h0 h3
    have hk : 0 ≤ k ∧ k < (categories.length : Int) := by
      simp [categories]
      exact ⟨h0, h3⟩
    simp [update_category_loop, hp, hk]
  · intro state seeds idx
    rfl

/-- C7 witness: the `["x", "5", "1"]` retry scenario from the initial
state. -/
theorem update_category_retry_witness :
    update_category initialState
        { inputs := ["x", "5", "1"], outputs := [], seeds := fun _ => 0,
          seedIdx := 0 } =
      some ({ category := some "chuck" },
        { inputs := [],
          outputs := [OutEvent.notANumber, OutEvent.invalidSelection,
            OutEvent.categoryChanged "chuck"],
          seeds := fun _ => 0, seedIdx := 0 }) :=
  update_category_retry.2.2 initialState (fun _ => 0) 0

/-- The final state of the quit-at-first-menu scenario: the initial
state with the recorded choice `"q"` and the quit flag set. -/
def quitState : JokeState :=
  { initialState with jokes_choice := "q", quit := true }

/-- Three unfoldings of the run loop for the quit-at-first-menu
scenario, at arbitrary fuel. -/
theorem runFrom_quit_aux (get_joke : String → String → String)
    (fuel : Nat) (line : String) (rest : List String)
    (outs : List OutEvent) (seeds : Nat → Nat) (idx : Nat)
    (h : pyLower (pyStrip line) = "q") :
    runFrom get_joke (fuel + 1 + 1 + 1) .show_menu initialState
        { inputs := line :: rest, outputs := outs, seeds := seeds,
          seedIdx := idx } =
      some (quitState, [.show_menu, .exit_bot]) := by
  simp [runFrom_succ, execNode, show_menu, exit_bot, h, applyUpdate,
    nextNode, route_choice, cond_edges, printEvent, initialState,
    quitState]

/-- C8: when the first menu input is the quit choice, the engine halts
after exactly one menu step and one exit step, with `quit = true` and an
empty jokes history. -/
theorem quit_first_menu_halts (get_joke : String → String → String)
    (line : String) (rest : List String) (seeds : Nat → Nat)
    (h : pyLower (pyStrip line) = "q") :
    invokeGraph get_joke (line :: rest) seeds =
      some (quitState, [.show_menu, .exit_bot]) := by
  show runFrom get_joke (97 + 1 + 1 + 1) .show_menu initialState _ = _
  exact runFrom_quit_aux get_joke 97 line rest [] seeds 0 h

/-- C8 witness: the run whose only console input is `"q"`. -/
theorem quit_first_menu_halts_witness :
    invokeGraph stubJoke ["q"] (fun _ => 0) =
      some (quitState, [.show_menu, .exit_bot]) :=
  quit_first_menu_halts stubJoke "q" [] (fun _ => 0) (by decide)

/-- Executing any single node preserves the bound
`length(jokes) ≤ 1`: menu, category-update and exit updates do not
mention `jokes`, and writer and critic updates carry a one-element
list, which replaces the stored one. -/
theorem execNode_jokes_bound (get_joke : String → String → String)
    (n : Node) (state : JokeState) (eff : Effects) (u : JokeUpdate)
    (eff' : Effects)
    (hex : execNode get_joke n state eff = some (u, eff'))
    (hlen : state.jokes.length ≤ 1) :
    (applyUpdate state u).jokes.length ≤ 1 := by
  cases n with
  | show_menu =>
    rcases hin : eff.inputs with _ | ⟨l, rest⟩ <;>
      simp only [execNode, show_menu, hin] at hex
    · exact absurd hex (by simp)
    · split at hex <;>
      · simp only [Option.some.injEq, Prod.mk.injEq] at hex
        obtain ⟨hu, -⟩ := hex
        subst hu
        simpa [applyUpdate] using hlen
  | writer =>
    simp only [execNode, writer_node, Option.some.injEq,
      Prod.mk.injEq] at hex
    obtain ⟨hu, -⟩ := hex
    subst hu
    simp [applyUpdate]
  | critic =>
    rcases hl : state.jokes.getLast? with _ | j <;>
      simp only [execNode, critic_node, hl] at hex
    · simp only [Option.some.injEq, Prod.mk.injEq] at hex
      obtain ⟨hu, -⟩ := hex
      subst hu
      simpa [applyUpdate] using hlen
    · split at hex <;>
      · simp only [Option.some.injEq, Prod.mk.injEq] at hex
        obtain ⟨hu, -⟩ := hex
        subst hu
        simp [applyUpdate]
  | update_category =>
    rcases hl : update_category_loop categories eff.inputs eff.outputs
        with _ | ⟨sel, rest, outs2⟩ <;>
      simp only [execNode, update_category, hl] at hex
    · exact absurd hex (by simp)
    · simp only [Option.some.injEq, Prod.mk.injEq] at hex
      obtain ⟨hu, -⟩ := hex
      subst hu
      simpa [applyUpdate] using hlen
  | exit_bot =>
    simp only [execNode, exit_bot, Option.some.injEq,
      Prod.mk.injEq] at hex
    obtain ⟨hu, -⟩ := hex
    subst hu
    simpa [applyUpdate] using hlen
  | ENDnode =>
    simp only [execNode, Option.some.injEq, Prod.mk.injEq] at hex
    obtain ⟨hu, -⟩ := hex
    subst hu
    simpa [applyUpdate] using hlen

/-- A whole run preserves the bound `length(jokes) ≤ 1` from any
starting node: every reachable state, the final one included, keeps at
most one joke in the history. -/
theorem runFrom_jokes_bound (get_joke : String → String → String)
    (fuel : Nat) :
    ∀ (n : Node) (state : JokeState) (eff : Effects)
      (final : JokeState) (trace : List Node),
      runFrom get_joke fuel n state eff = some (final, trace) →
      state.jokes.length ≤ 1 → final.jokes.length ≤ 1 := by
  induction fuel with
  | zero =>
    intro n state eff final trace hrun
    simp [runFrom] at hrun
  | succ fuel ih =>
    intro n state eff final trace hrun hlen
    rw [runFrom_succ] at hrun
    split at hrun
    · simp only [Option.some.injEq, Prod.mk.injEq] at hrun
      obtain ⟨h1, -⟩ := hrun
      exact h1 ▸ hlen
    · cases hex : execNode get_joke n state eff with
      | none => rw [hex] at hrun; exact absurd hrun (by simp)
      | some p =>
        obtain ⟨u, eff'⟩ := p
        rw [hex] at hrun
        simp only at hrun
        cases hrec : runFrom get_joke fuel
            (nextNode n (applyUpdate state u)) (applyUpdate state u) eff'
            with
        | none => rw [hrec] at hrun; exact absurd hrun (by simp)
        | some q =>
          obtain ⟨f2, tr2⟩ := q
          rw [hrec] at hrun
          simp only [Option.some.injEq, Prod.mk.injEq] at hrun
          obtain ⟨h1, -⟩ := hrun
          subst h1
          exact ih _ _ _ _ _ hrec
            (execNode_jokes_bound get_joke n state eff u eff' hex hlen)

/-- C10: the jokes history never holds more than one record: each node
execution preserves `length(jokes) ≤ 1` (the jokes channel has no
reducer, so writer and critic updates replace the list with a
one-element list and no other node touches it), hence every run from a
state within the bound ends within the bound. -/
theorem jokes_length_at_most_one :
    (∀ (get_joke : String → String → String) (n : Node)
        (state : JokeState) (eff : Effects) (u : JokeUpdate)
        (eff' : Effects),
       execNode get_joke n state eff = some (u, eff') →
       state.jokes.length ≤ 1 →
       (applyUpdate state u).jokes.length ≤ 1) ∧
    (∀ (get_joke : String → String → String) (fuel : Nat) (n : Node)
        (state : JokeState) (eff : Effects) (final : JokeState)
        (trace : List Node),
       runFrom get_joke fuel n state eff = some (final, trace) →
       state.jokes.length ≤ 1 → final.jokes.length ≤ 1) :=
  ⟨execNode_jokes_bound,
    fun get_joke fuel => runFrom_jokes_bound get_joke fuel⟩

/-- C10 witness: a concrete writer step and the concrete single-input
run both stay within the one-joke bound. -/
theorem jokes_length_at_most_one_witness :
    (applyUpdate initialState
        (writer_node stubJoke initialState eff0).1).jokes.length ≤ 1 ∧
    quitState.jokes.length ≤ 1 :=
  ⟨jokes_length_at_most_one.1 stubJoke .writer initialState eff0 _ _ rfl
      (by decide),
    jokes_length_at_most_one.2 stubJoke 100 .show_menu initialState
      { inputs := ["q"], outputs := [], seeds := fun _ => 0, seedIdx := 0 }
      quitState [.show_menu, .exit_bot] (by decide) (by decide)⟩

/-- C1: in the end-to-end `["n", "n", "q"]` run the writer node executes
twice, yet the final history length is 1, not 2: a step's jokes update
replaces the stored list instead of being appended to it, so the
history is not append-only. -/
theorem writer_step_replaces_history :
    scenarioNNQ.map (fun p => (p.2.count .writer, p.1.jokes.length)) =
      some (2, 1) := by
  rfl

/-- C2: the `["n", "n", "q"]` run with the fixed 50-character stub joke
source ends with `quit = true` and every surviving record approved with
category `"neutral"`, but the final history holds exactly one joke, not
two. -/
theorem scenario_nnq_final_state :
    scenarioNNQ.map
        (fun p => (p.1.quit, p.1.jokes.length, p.1.jokes.map Joke.category,
          p.1.jokes.map Joke.approved)) =
      some (true, 1, ["neutral"], [true]) := by
  rfl

end JokeBot
